import Mathlib

/-!
Verification of the gradient aggregation / reduction orchestration core of
`horovod/_keras/__init__.py` (the Keras distributed-optimizer wrapper).

The Python source is shallowly embedded:
* gradient tensors become the inductive `Grad` (dense or `IndexedSlices`);
* a gradient batch is a `List (Option Grad)` (`none` embeds Python `None`);
* the external collective `hvd.allreduce` is an arbitrary function
  `Grad → Grad` (this also quantifies over the participant count, on which
  the external collective depends), and each submission is recorded as an
  `Event` so that theorems can count and inspect the collective calls;
* deferred (graph) execution is embedded as explicit graph construction:
  a `Graph` of operations carrying their control-dependency edges;
* code of this repository that is not under `src/` (the local gradient
  aggregation helpers and the profiling helper) is modelled from the spec;
  each such definition says so in its doc comment.
-/

namespace Horovod

/-- A gradient tensor: dense, or sparse (`tf.IndexedSlices`, an index/value
pair). Values are embedded as integers; the claims under verification are
structural (shape, order, nullness, call counts), not numeric. -/
inductive Grad where
  | dense (value : Int)
  | indexedSlices (index : Nat) (value : Int)
deriving DecidableEq, Repr

/-- Embeds `isinstance(grad, tf.IndexedSlices)` from line 34 of the source. -/
def Grad.isIndexedSlices : Grad → Bool
  | .dense _ => false
  | .indexedSlices _ _ => true

/-- Embeds `tf.convert_to_tensor(grad)` (line 35): densification of a sparse
gradient; on an already dense tensor it is the identity. The tensor runtime
is external; the spec describes this as sparse-to-dense normalization. -/
def convert_to_tensor : Grad → Grad
  | .dense v => .dense v
  | .indexedSlices _ v => .dense v

/-- Observable side effects of the orchestration core, recorded in order. -/
inductive Event where
  | allreduceOp (g : Grad)
  | aggComputeGradients
  | aggApplyGradients
  | nativeApplyGradients
deriving DecidableEq, Repr

/-- The gradient actually submitted to `hvd.allreduce` for a non-null input
gradient `g`: lines 33–35 densify `g` first exactly when `sparse_as_dense`
is set and `g` is an `IndexedSlices`. -/
def submittedGrad (sparse_as_dense : Bool) (g : Grad) : Grad :=
  if sparse_as_dense && g.isIndexedSlices then convert_to_tensor g else g

/-- Embedding of `allreduce_grads`, the function returned by
`_make_allreduce_grads_fn` (source lines 27–45).  For each non-null
gradient it optionally densifies, submits the gradient to the external
collective `hvdAllreduce` (recording an `Event.allreduceOp`), and appends
the reduced value; null entries are appended as null with no collective
call.  Returns the output batch together with the list of recorded
collective submissions, in order. -/
def allreduce_grads (sparse_as_dense : Bool) (hvdAllreduce : Grad → Grad) :
    List (Option Grad) → List (Option Grad) × List Event
  | [] => ([], [])
  | g :: gs =>
    let rest := allreduce_grads sparse_as_dense hvdAllreduce gs
    match g with
    | some grad =>
        let sub := submittedGrad sparse_as_dense grad
        (some (hvdAllreduce sub) :: rest.1, Event.allreduceOp sub :: rest.2)
    | none => (none :: rest.1, rest.2)

/-- The numeric content of a gradient (a single integer in this
embedding; densification preserves it). -/
def Grad.value : Grad → Int
  | .dense v => v
  | .indexedSlices _ v => v

/-- Zero-initialized accumulators aligned with a gradient batch: one
accumulator per non-null gradient, sized/typed to match (spec §4.2
`init_aggregation_vars`). -/
def zeroAccumulators (grads : List (Option Grad)) : List (Option Int) :=
  grads.map (Option.map fun _ => 0)

/-- Modelled from the spec: `LocalGradientAggregationHelperEager`
(`horovod/common/gradient_aggregation_eager.py`, a file of this repository
that is not under `src/`).  Spec §3 "Aggregation State": per-variable
accumulator (running sum of gradients since last reduction) plus a step
counter; §3 "Aggregation Policy": frequency (≥ 1), averaging flag,
sparse-to-dense flag. -/
structure AggHelperEager where
  aggregation_frequency : Nat
  sparse_as_dense : Bool
  average_aggregated_gradients : Bool
  counter : Nat
  accumulators : Option (List (Option Int))
deriving DecidableEq, Repr

/-- Modelled from the spec (§4.3, eager aggregation helper): accumulation,
the frequency check, and reduction happen synchronously within the call and
the caller observes the final values directly — no placeholder behavior.
Adds each incoming gradient into its accumulator and increments the step
counter; if the counter has not reached the configured frequency, returns
without issuing communication; otherwise divides each accumulator by the
frequency if averaging is set, invokes the reduction function on the
accumulated values, and resets accumulators and counter (spec §4.2 contract,
shared by §4.3).  A mismatched accumulator shape across calls is a fatal
configuration error (spec §4.2 edge cases). -/
def AggHelperEager.compute_gradients (h : AggHelperEager)
    (reduceFn : List (Option Grad) → List (Option Grad) × List Event)
    (grads : List (Option Grad)) :
    Except String (List (Option Grad) × List Event × AggHelperEager) :=
  let acc0 := h.accumulators.getD (zeroAccumulators grads)
  if acc0.map Option.isSome = grads.map Option.isSome then
    let acc := List.zipWith (fun a g =>
        match a, g with
        | some s, some gr => some (s + gr.value)
        | _, _ => (none : Option Int)) acc0 grads
    let counter := h.counter + 1
    if counter < h.aggregation_frequency then
      Except.ok (grads, [], { h with counter := counter, accumulators := some acc })
    else
      let toReduce := acc.map (Option.map fun s =>
        Grad.dense (if h.average_aggregated_gradients then
          s / (h.aggregation_frequency : Int) else s))
      let r := reduceFn toReduce
      Except.ok (r.1, r.2,
        { h with counter := 0, accumulators := some (zeroAccumulators grads) })
  else
    Except.error "mismatched accumulator shape: aggregation configuration must be static"

/-- Modelled from the spec (§4.3): the eager helper's `apply_gradients`
"simply calls `update_fn` synchronously since there is no dependency graph
to order against" and returns whatever `update_fn` returns. -/
def AggHelperEager.apply_gradients (_ : AggHelperEager) (update_fn : Unit → α) : α :=
  update_fn ()

/-- A fresh eager aggregation helper as built by `_DistributedOptimizer.__init__`
(source lines 84–89): no accumulators allocated yet, counter zero. -/
def freshAggHelperEager (aggregation_frequency : Nat)
    (sparse_as_dense average_aggregated_gradients : Bool) : AggHelperEager :=
  ⟨aggregation_frequency, sparse_as_dense, average_aggregated_gradients, 0, none⟩

/-- The wrapper state of `_DistributedOptimizer` (eager execution mode):
the call-ordering flag `_aggregated_gradients` (line 61), the stored raw
gradients `self.grads` (lines 102/106), and the aggregation helper. -/
structure WrapperState where
  aggregated_gradients : Bool
  grads : List (Option Grad)
  agg_helper : AggHelperEager
deriving DecidableEq, Repr

/-- A freshly constructed wrapper (source lines 55–91, eager mode):
`_aggregated_gradients` is `False` (line 61). -/
def freshWrapperState (aggregation_frequency : Nat)
    (sparse_as_dense average_aggregated_gradients : Bool) : WrapperState :=
  ⟨false, [], freshAggHelperEager aggregation_frequency sparse_as_dense
      average_aggregated_gradients⟩

/-- The observable outcome of one wrapper method call. -/
inductive CallOutcome where
  | gradients (gs : List (Option Grad))
  | applied
  | raised (msg : String)
deriving DecidableEq, Repr

/-- The wrapper entry points, as invoked by Keras: `get_gradients(loss,
params)` carries the raw gradients that `super().get_gradients` produced
(line 102), `_aggregate_gradients(grads_and_vars)` carries grad/variable
pairs (line 106, variables embedded as names), and `apply_gradients`. -/
inductive KerasMethod where
  | get_gradients (raw : List (Option Grad))
  | aggregate_gradients (grads_and_vars : List (Option Grad × Nat))
  | apply_gradients
deriving DecidableEq, Repr

namespace DistributedOptimizer

/-- Embedding of `_DistributedOptimizer._allreduce` (source lines 109–116,
the eager-execution branch; the deferred branch, lines 117–130, is embedded
at graph level below).  Sets the ordering flag `_aggregated_gradients`
(line 110) before anything else; with more than one collective participant
delegates to the aggregation helper's `compute_gradients`, otherwise
returns the stored gradients unchanged with no helper, collective, or
profiling call. -/
def allreduceCall (hvdSize : Nat) (hvdAllreduce : Grad → Grad)
    (s : WrapperState) : WrapperState × CallOutcome × List Event :=
  let s := { s with aggregated_gradients := true }
  if 1 < hvdSize then
    match s.agg_helper.compute_gradients
        (allreduce_grads s.agg_helper.sparse_as_dense hvdAllreduce) s.grads with
    | .ok (res, evs, agg) =>
        ({ s with agg_helper := agg }, .gradients res,
          Event.aggComputeGradients :: evs)
    | .error e => (s, .raised e, [Event.aggComputeGradients])
  else
    (s, .gradients s.grads, [])

/-- The exception message of `apply_gradients` (source lines 134–137),
punctuation simplified; it names the required call sequence:
`get_gradients` / `_aggregate_gradients` before `apply_gradients`. -/
def orderingErrorMessage : String :=
  "apply_gradients() was called without a call to get_gradients() or _aggregate_gradients . If you are using TensorFlow 2.0 or 2.1, please specify experimental_run_tf_function=False in compile()."

/-- One wrapper method call (source lines 93–143, eager mode).
`get_gradients` stores the raw gradients then returns `_allreduce()`
(lines 102–103); `_aggregate_gradients` stores the gradient of every
grad/variable pair then returns `_allreduce()` (lines 106–107);
`apply_gradients` raises the ordering error when `_aggregated_gradients`
is unset and otherwise delegates to the helper's `apply_gradients` with a
closure performing the wrapped optimizer's native update (lines 132–143). -/
def step (hvdSize : Nat) (hvdAllreduce : Grad → Grad) (s : WrapperState) :
    KerasMethod → WrapperState × CallOutcome × List Event
  | .get_gradients raw =>
      allreduceCall hvdSize hvdAllreduce { s with grads := raw }
  | .aggregate_gradients gvs =>
      allreduceCall hvdSize hvdAllreduce { s with grads := gvs.map Prod.fst }
  | .apply_gradients =>
      if s.aggregated_gradients then
        let evs := s.agg_helper.apply_gradients (fun _ => [Event.nativeApplyGradients])
        (s, .applied, Event.aggApplyGradients :: evs)
      else
        (s, .raised orderingErrorMessage, [])

/-- Runs a sequence of wrapper method calls, threading the state. -/
def runTrace (hvdSize : Nat) (hvdAllreduce : Grad → Grad)
    (s : WrapperState) (ms : List KerasMethod) : WrapperState :=
  ms.foldl (fun s m => (step hvdSize hvdAllreduce s m).1) s

end DistributedOptimizer

/-- Whether a method call reaches `_allreduce` (both gradient entry points
do, unconditionally: source lines 103 and 107). -/
def KerasMethod.reachesAllreduce : KerasMethod → Bool
  | .get_gradients _ => true
  | .aggregate_gradients _ => true
  | .apply_gradients => false

/-!
Deferred (graph-construction) execution mode.  In this mode every tensor is
a node of a computation graph; `tf.control_dependencies` attaches explicit
dependency edges to the operations created under it.  The embedding records
the graph being built: an operation is a node id, a kind, and the list of
node ids it is forced to run after. -/

/-- The kinds of graph operations `_allreduce` creates in deferred mode:
the profiling start/end markers, the reduced-gradient operations created by
the aggregation helper's `compute_gradients` (carrying the id of the input
gradient tensor they reduce), and the `tf.identity` pass-throughs returned
to the caller (carrying the id of the tensor they forward). -/
inductive OpKind where
  | profileStartOp
  | profileEndOp
  | reducedGradOp (input : Nat)
  | identityOp (input : Nat)
deriving DecidableEq, Repr

/-- One operation of the computation graph: its node id, kind, and control
inputs — this operation is forced to run only after every listed node. -/
structure GraphOp where
  id : Nat
  kind : OpKind
  ctrl : List Nat
deriving DecidableEq, Repr

/-- A computation graph under construction: the operations recorded so far,
in creation order, and the next fresh node id. -/
structure Graph where
  ops : List GraphOp
  fresh : Nat
deriving DecidableEq, Repr

def Graph.empty : Graph := ⟨[], 0⟩

/-- Records a new operation with the given kind and control dependencies;
returns its node id. -/
def Graph.addOp (g : Graph) (k : OpKind) (ctrl : List Nat) : Nat × Graph :=
  (g.fresh, ⟨g.ops ++ [⟨g.fresh, k, ctrl⟩], g.fresh + 1⟩)

def OpKind.isReducedGrad : OpKind → Bool
  | .reducedGradOp _ => true
  | _ => false

def OpKind.isIdentity : OpKind → Bool
  | .identityOp _ => true
  | _ => false

/-- Operation `a` is forced to run only after `b` in graph `g`: `g` has an operation
with id `a` whose control inputs include `b`. -/
def Graph.dependsOn (g : Graph) (a b : Nat) : Prop :=
  ∃ op ∈ g.ops, op.id = a ∧ b ∈ op.ctrl

/-- Modelled from the spec: the deferred-mode
`LocalGradientAggregationHelper.compute_gradients`
(`horovod/common/gradient_aggregation.py`, a file of this repository that
is not under `src/`), viewed at graph level.  Per spec §4.2 it "must be
insertable into a dependency graph so that downstream consumers only
observe results after this computation completes"; the source (line 123)
creates its operations under `tf.control_dependencies([profile_start])`, so
each created reduction operation carries that control edge (`psId`).  Null
entries pass through as null with no operation (spec §3: absence "must be
passed through unchanged").  Returns the reduced-gradient node ids aligned
with the input batch. -/
def deferredComputeGradients (psId : Nat) :
    List (Option Nat) → Graph → List (Option Nat) × Graph
  | [], g => ([], g)
  | none :: rest, g =>
      let r := deferredComputeGradients psId rest g
      (none :: r.1, r.2)
  | some t :: rest, g =>
      let a := g.addOp (.reducedGradOp t) [psId]
      let r := deferredComputeGradients psId rest a.2
      (some a.1 :: r.1, r.2)

/-- The `tf.identity` pass-throughs of source line 128, created under
`tf.control_dependencies([comm_end])`: one identity operation per non-null
reduced gradient, each forced to run only after `commEndId`; null entries
pass through as null (identity is the runtime's no-op pass-through, spec
§6). -/
def identityLayer (commEndId : Nat) :
    List (Option Nat) → Graph → List (Option Nat) × Graph
  | [], g => ([], g)
  | none :: rest, g =>
      let r := identityLayer commEndId rest g
      (none :: r.1, r.2)
  | some t :: rest, g =>
      let a := g.addOp (.identityOp t) [commEndId]
      let r := identityLayer commEndId rest a.2
      (some a.1 :: r.1, r.2)

/-- Embedding of the deferred-execution branch of
`_DistributedOptimizer._allreduce` (source lines 117–130) with more than
one participant: the profiling helper's `profile_start` (modelled from the
spec §4.4: `TFProfileHelper`, `horovod/common/tf_profile.py`, not under
`src/`, produces a marker operation), then the aggregation helper's
`compute_gradients` under `tf.control_dependencies([profile_start])`
(line 123–124), then `comm_end = profile_end()` under
`tf.control_dependencies(allreduced_grads)` (lines 125–126), then the
identity pass-throughs under `tf.control_dependencies([comm_end])`
(lines 127–128). -/
def allreduceDeferredBody (grads : List (Option Nat)) (g : Graph) :
    List (Option Nat) × Graph :=
  let ps := g.addOp .profileStartOp []
  let reduced := deferredComputeGradients ps.1 grads ps.2
  let ce := reduced.2.addOp .profileEndOp (reduced.1.filterMap id)
  identityLayer ce.1 reduced.1 ce.2

/-- Embedding of `_DistributedOptimizer._allreduce`, deferred mode (source
lines 117–130): with more than one collective participant it builds the
profiled reduction subgraph; otherwise it returns the stored gradients
unchanged and records no operation (line 130). -/
def allreduceDeferred (hvdSize : Nat) (grads : List (Option Nat)) (g : Graph) :
    List (Option Nat) × Graph :=
  if 1 < hvdSize then allreduceDeferredBody grads g else (grads, g)

/-!
`load_model` (source lines 178–194): the Model Restoration Adapter.  Python
classes are embedded as a name plus a defining module; Python dicts keyed by
strings become lookup functions `String → Option α`, where insertion and
`dict.update` let the later binding win. -/

/-- A Python class, as `load_model` observes it: its `__name__` and its
`__module__`. -/
structure PyClass where
  name : String
  module : String
deriving DecidableEq, Repr

/-- Embeds Python `str.lower()` (`subclass.__name__.lower()`, source line
180): lowercases every character. -/
def pyLower (s : String) : String := ⟨s.data.map Char.toLower⟩

/-- A string-keyed Python dict, as a lookup function. -/
def Dict (α : Type) : Type := String → Option α

/-- Dict insertion: the new binding shadows any earlier binding of the same
key. -/
def dictInsert (d : Dict α) (k : String) (v : α) : Dict α :=
  fun q => if q = k then some v else d q

/-- Embeds `d.update(e)`: bindings of `e` override equal-keyed bindings of `d`. -/
def dictUpdate (d e : Dict α) : Dict α :=
  fun q => (e q).orElse (fun _ => d q)

/-- A dict built from a list of key/value pairs (a Python dict
comprehension): later pairs override earlier equal-keyed ones. -/
def dictOfList (l : List (String × α)) : Dict α :=
  l.foldl (fun d p => dictInsert d p.1 p.2) (fun _ => none)

/-- The first layer of `load_model`'s table (source lines 179–183): each
subclass of the optimizer base class whose defining module is one of
`optimizer_modules` contributes, under its class name LOWERCASED, the
wrapped constructor. -/
def builtinTable (wrap : PyClass → α) (optimizer_modules : List String)
    (subclasses : List PyClass) : Dict α :=
  dictOfList ((subclasses.filter (fun c => c.module ∈ optimizer_modules)).map
    (fun c => (pyLower c.name, wrap c)))

/-- The second layer (source lines 185–189): each caller-supplied custom
optimizer class contributes, under its EXACT class name, the wrapped
constructor. -/
def customOptimizerTable (wrap : PyClass → α)
    (custom_optimizers : List PyClass) : Dict α :=
  dictOfList (custom_optimizers.map (fun c => (c.name, wrap c)))

/-- The combined name→constructor table `horovod_objects` built by
`load_model` (source lines 179–192): built-in entries, then—when present—
`dict.update` with the custom optimizer entries, then with the fully custom
object mappings. -/
def horovodObjects (wrap : PyClass → α) (optimizer_modules : List String)
    (subclasses : List PyClass) (custom_optimizers : Option (List PyClass))
    (custom_objects : Option (Dict α)) : Dict α :=
  let t := builtinTable wrap optimizer_modules subclasses
  let t := match custom_optimizers with
    | some cs => dictUpdate t (customOptimizerTable wrap cs)
    | none => t
  match custom_objects with
  | some co => dictUpdate t co
  | none => t

/-- Embedding of `load_model` (source lines 178–194): builds the combined
table and loads the model with it.  The external
`keras.models.load_model` is the abstract `loadFn`, taking the file path
and the `custom_objects` table. -/
def load_model (wrap : PyClass → α) (optimizer_modules : List String)
    (subclasses : List PyClass) (filepath : String)
    (custom_optimizers : Option (List PyClass))
    (custom_objects : Option (Dict α))
    (loadFn : String → Dict α → β) : β :=
  loadFn filepath
    (horovodObjects wrap optimizer_modules subclasses custom_optimizers custom_objects)

/-!
`create_distributed_optimizer` (source lines 48–151): the wrapped optimizer
instance is embedded as its class name, its `get_config()` configuration,
and its remaining internal state (slot variables, iteration counters, …)
that `get_config` does not expose. -/

/-- A live optimizer instance, as `create_distributed_optimizer` observes
it: `__class__.__name__`, the `get_config()` result, and internal state not
part of the configuration. -/
structure OptimizerInstance where
  className : String
  config : List (String × Int)
  internalState : Nat
deriving DecidableEq, Repr

/-- Embeds `optimizer.get_config()`: the serializable configuration only. -/
def OptimizerInstance.get_config (o : OptimizerInstance) : List (String × Int) :=
  o.config

/-- An instance of the dynamically created `_DistributedOptimizer` subclass:
it bears a class name, holds the configuration it was constructed from, and
a fresh wrapper state (its `__init__`, source lines 55–91, starts with
`_aggregated_gradients = False` and a fresh aggregation helper). -/
structure DistributedInstance where
  className : String
  config : List (String × Int)
  wrapper : WrapperState
deriving DecidableEq, Repr

/-- Embeds `cls.from_config(config)`: constructs a fresh instance of the
dynamically created class from a configuration alone; `__init__` (lines
55–91) initializes the wrapper state afresh. -/
def fromConfig (className : String) (config : List (String × Int))
    (aggregation_frequency : Nat)
    (sparse_as_dense average_aggregated_gradients : Bool) : DistributedInstance :=
  ⟨className, config,
    freshWrapperState aggregation_frequency sparse_as_dense
      average_aggregated_gradients⟩

/-- Embedding of `create_distributed_optimizer` (source lines 48–151): it
dynamically creates a subclass bearing the wrapped optimizer's class name
(`type(optimizer.__class__.__name__, (optimizer.__class__,), ...)`, line
149) and returns `cls.from_config(optimizer.get_config())` (line 151).  The
function only reads the given optimizer. -/
def create_distributed_optimizer (optimizer : OptimizerInstance)
    (aggregation_frequency : Nat)
    (sparse_as_dense average_aggregated_gradients : Bool) : DistributedInstance :=
  fromConfig optimizer.className optimizer.get_config
    aggregation_frequency sparse_as_dense average_aggregated_gradients

/-- A heap of live optimizer instances, for stating that
`create_distributed_optimizer` mutates nothing: the source only reads
`optimizer.__class__` and calls `optimizer.get_config()`. -/
def OptimizerHeap : Type := Nat → OptimizerInstance

/-- Runs `create_distributed_optimizer` against a heap: it reads the wrapped
optimizer at `ref` and returns the new instance together with the heap
after the call. -/
def create_distributed_optimizer_heap (h : OptimizerHeap) (ref : Nat)
    (aggregation_frequency : Nat)
    (sparse_as_dense average_aggregated_gradients : Bool) :
    DistributedInstance × OptimizerHeap :=
  (create_distributed_optimizer (h ref) aggregation_frequency
    sparse_as_dense average_aggregated_gradients, h)

/-!  Theorems.  -/

/-- The output batch of `allreduce_grads` is the input batch mapped
pointwise: each non-null gradient is replaced by the collective reduction
of its submitted form, each null stays null. -/
theorem allreduce_grads_fst (sad : Bool) (f : Grad → Grad) :
    ∀ gs : List (Option Grad),
      (allreduce_grads sad f gs).1 =
        gs.map (Option.map fun g => f (submittedGrad sad g))
  | [] => rfl
  | none :: gs => by
      simp [allreduce_grads, allreduce_grads_fst sad f gs]
  | some g :: gs => by
      simp [allreduce_grads, allreduce_grads_fst sad f gs]

/-- The collective submissions recorded by `allreduce_grads` are exactly
the non-null input gradients, in order, each in its submitted form. -/
theorem allreduce_grads_snd (sad : Bool) (f : Grad → Grad) :
    ∀ gs : List (Option Grad),
      (allreduce_grads sad f gs).2 =
        (gs.filterMap id).map (fun g => Event.allreduceOp (submittedGrad sad g))
  | [] => rfl
  | none :: gs => by
      simp [allreduce_grads, allreduce_grads_snd sad f gs]
  | some g :: gs => by
      simp [allreduce_grads, allreduce_grads_snd sad f gs]

/-- C2.  The function returned by `_make_allreduce_grads_fn` returns a
batch of exactly the input's length, with each entry the pointwise image of
the input entry (hence input order is preserved and nulls sit at exactly
the input's null positions), and it records one collective allreduce per
non-null entry — none for null entries — in input order.  The external
collective `f` is arbitrary, so this holds for every participant count. -/
theorem allreduce_grads_shape_preserving (sad : Bool) (f : Grad → Grad)
    (gs : List (Option Grad)) :
    (allreduce_grads sad f gs).1 =
        gs.map (Option.map fun g => f (submittedGrad sad g)) ∧
    (allreduce_grads sad f gs).1.length = gs.length ∧
    (allreduce_grads sad f gs).1.map Option.isNone = gs.map Option.isNone ∧
    (allreduce_grads sad f gs).2 =
        (gs.filterMap id).map (fun g => Event.allreduceOp (submittedGrad sad g)) ∧
    (allreduce_grads sad f gs).2.length = (gs.filterMap id).length := by
  refine ⟨allreduce_grads_fst sad f gs, ?_, ?_, allreduce_grads_snd sad f gs, ?_⟩
  · rw [allreduce_grads_fst sad f gs]; simp
  · rw [allreduce_grads_fst sad f gs]
    simp only [List.map_map]
    refine List.map_congr_left ?_
    intro a _
    cases a <;> rfl
  · rw [allreduce_grads_snd sad f gs]; simp

/-- C5.  With `sparse_as_dense = true` every sparse (`IndexedSlices`)
gradient reaches the collective densified by `convert_to_tensor` (the
submitted form is dense); with `sparse_as_dense = false` the sparse
gradient is submitted unconverted.  The recorded submissions pin down what
reached the collective. -/
theorem sparse_as_dense_handling (f : Grad → Grad) (gs : List (Option Grad)) :
    (∀ sad : Bool, (allreduce_grads sad f gs).2 =
        (gs.filterMap id).map (fun g => Event.allreduceOp (submittedGrad sad g))) ∧
    (∀ g : Grad, g.isIndexedSlices = true →
        submittedGrad true g = convert_to_tensor g ∧
        (convert_to_tensor g).isIndexedSlices = false ∧
        submittedGrad false g = g) := by
  refine ⟨fun sad => allreduce_grads_snd sad f gs, fun g hg => ?_⟩
  cases g with
  | dense v => simp [Grad.isIndexedSlices] at hg
  | indexedSlices i v =>
      refine ⟨?_, rfl, rfl⟩
      simp [submittedGrad, Grad.isIndexedSlices]

/-- The method `_allreduce` sets the ordering flag unconditionally (source line 110),
whatever branch it then takes. -/
theorem allreduceCall_flag (n : Nat) (f : Grad → Grad) (s : WrapperState) :
    ((DistributedOptimizer.allreduceCall n f s).1).aggregated_gradients = true := by
  unfold DistributedOptimizer.allreduceCall
  dsimp only
  split
  · split <;> rfl
  · rfl

/-- Calling `apply_gradients` with the ordering flag set: delegation to the
helper. -/
theorem step_apply_of_flag (n : Nat) (f : Grad → Grad) (s : WrapperState)
    (hs : s.aggregated_gradients = true) :
    DistributedOptimizer.step n f s KerasMethod.apply_gradients
      = (s, CallOutcome.applied,
          Event.aggApplyGradients ::
            s.agg_helper.apply_gradients (fun _ => [Event.nativeApplyGradients])) := by
  simp [DistributedOptimizer.step, hs, AggHelperEager.apply_gradients]

/-- The ordering flag after one method call: the gradient entry points set
it (they reach `_allreduce`), `apply_gradients` never changes it. -/
theorem step_flag (n : Nat) (f : Grad → Grad) (s : WrapperState) (m : KerasMethod) :
    ((DistributedOptimizer.step n f s m).1).aggregated_gradients =
      (s.aggregated_gradients || m.reachesAllreduce) := by
  cases m with
  | get_gradients raw =>
      simp [DistributedOptimizer.step, KerasMethod.reachesAllreduce, allreduceCall_flag]
  | aggregate_gradients gvs =>
      simp [DistributedOptimizer.step, KerasMethod.reachesAllreduce, allreduceCall_flag]
  | apply_gradients =>
      cases hb : s.aggregated_gradients <;>
        simp [DistributedOptimizer.step, KerasMethod.reachesAllreduce, hb]

/-- The ordering flag after a trace of method calls, from any state. -/
theorem runTrace_flag (n : Nat) (f : Grad → Grad) :
    ∀ (ms : List KerasMethod) (s : WrapperState),
      (DistributedOptimizer.runTrace n f s ms).aggregated_gradients =
        (s.aggregated_gradients || ms.any KerasMethod.reachesAllreduce)
  | [], s => by simp [DistributedOptimizer.runTrace]
  | m :: ms, s => by
      have h := runTrace_flag n f ms (DistributedOptimizer.step n f s m).1
      simp only [DistributedOptimizer.runTrace, List.foldl_cons] at h ⊢
      rw [h, step_flag, List.any_cons, Bool.or_assoc]

/-- C7.  The ordering flag `_aggregated_gradients` is false exactly until
the first call that reaches `_allreduce` (via `get_gradients` or
`_aggregate_gradients`): on a fresh wrapper, after any trace of method
calls the flag reads true iff the trace contains such a call; and from any
state in which the flag is already true, no method call ever resets it —
a once-armed latch for the instance's lifetime. -/
theorem aggregated_gradients_latch (n : Nat) (f : Grad → Grad) :
    (∀ (freq : Nat) (sad avg : Bool) (ms : List KerasMethod),
      (DistributedOptimizer.runTrace n f (freshWrapperState freq sad avg) ms).aggregated_gradients
        = ms.any KerasMethod.reachesAllreduce) ∧
    (∀ (s : WrapperState) (m : KerasMethod), s.aggregated_gradients = true →
      ((DistributedOptimizer.step n f s m).1).aggregated_gradients = true) := by
  constructor
  · intro freq sad avg ms
    rw [runTrace_flag]
    simp [freshWrapperState]
  · intro s m hs
    rw [step_flag, hs, Bool.true_or]

/-- Concrete instance of `aggregated_gradients_latch`: a state with the
flag armed keeps it armed across an `apply_gradients` call. -/
theorem aggregated_gradients_latch_witness :
    ((DistributedOptimizer.step 2 (fun g => g)
        ⟨true, [some (Grad.dense 1)], freshAggHelperEager 1 false false⟩
        KerasMethod.apply_gradients).1).aggregated_gradients = true :=
  (aggregated_gradients_latch 2 (fun g => g)).2
    ⟨true, [some (Grad.dense 1)], freshAggHelperEager 1 false false⟩
    KerasMethod.apply_gradients rfl

/-- C1.  On a freshly constructed wrapper, `apply_gradients` raises the
ordering exception — whose message names both `get_gradients` and
`_aggregate_gradients`, the required preceding calls — without touching the
state; after any call that reaches `_allreduce`, `apply_gradients` raises
no ordering error and instead delegates to the aggregation helper's
`apply_gradients` with the closure performing the wrapped optimizer's
native update. -/
theorem apply_gradients_ordering (n : Nat) (f : Grad → Grad) :
    (∀ (freq : Nat) (sad avg : Bool),
      DistributedOptimizer.step n f (freshWrapperState freq sad avg)
          KerasMethod.apply_gradients
        = (freshWrapperState freq sad avg,
            CallOutcome.raised DistributedOptimizer.orderingErrorMessage, [])) ∧
    (∃ a b, DistributedOptimizer.orderingErrorMessage = a ++ ("get_gradients" ++ b)) ∧
    (∃ a b, DistributedOptimizer.orderingErrorMessage = a ++ ("_aggregate_gradients" ++ b)) ∧
    (∀ (s : WrapperState) (m : KerasMethod), m.reachesAllreduce = true →
      DistributedOptimizer.step n f (DistributedOptimizer.step n f s m).1
          KerasMethod.apply_gradients
        = ((DistributedOptimizer.step n f s m).1, CallOutcome.applied,
            Event.aggApplyGradients ::
              ((DistributedOptimizer.step n f s m).1).agg_helper.apply_gradients
                (fun _ => [Event.nativeApplyGradients]))) := by
  refine ⟨fun freq sad avg => rfl, ?_, ?_, ?_⟩
  · exact ⟨"apply_gradients() was called without a call to ",
      "() or _aggregate_gradients . If you are using TensorFlow 2.0 or 2.1, please specify experimental_run_tf_function=False in compile().", rfl⟩
  · exact ⟨"apply_gradients() was called without a call to get_gradients() or ",
      " . If you are using TensorFlow 2.0 or 2.1, please specify experimental_run_tf_function=False in compile().", rfl⟩
  · intro s m hm
    exact step_apply_of_flag n f _ (by rw [step_flag, hm, Bool.or_true])

/-- Concrete instance of `apply_gradients_ordering`: after a
`get_gradients` call on a fresh two-participant wrapper, `apply_gradients`
succeeds and delegates to the helper. -/
theorem apply_gradients_ordering_witness :
    KerasMethod.reachesAllreduce (KerasMethod.get_gradients [some (Grad.dense 1)]) = true ∧
    DistributedOptimizer.step 2 (fun g => g)
        (DistributedOptimizer.step 2 (fun g => g) (freshWrapperState 1 false false)
          (KerasMethod.get_gradients [some (Grad.dense 1)])).1
        KerasMethod.apply_gradients
      = ((DistributedOptimizer.step 2 (fun g => g) (freshWrapperState 1 false false)
            (KerasMethod.get_gradients [some (Grad.dense 1)])).1, CallOutcome.applied,
          Event.aggApplyGradients ::
            ((DistributedOptimizer.step 2 (fun g => g) (freshWrapperState 1 false false)
                (KerasMethod.get_gradients [some (Grad.dense 1)])).1).agg_helper.apply_gradients
              (fun _ => [Event.nativeApplyGradients])) :=
  ⟨rfl, (apply_gradients_ordering 2 (fun g => g)).2.2.2 (freshWrapperState 1 false false)
    (KerasMethod.get_gradients [some (Grad.dense 1)]) rfl⟩

/-- C3.  With a single collective participant, `_allreduce` returns the
stored gradient sequence itself: in eager mode the state keeps its
aggregation helper untouched (only the ordering flag is set, line 110) and
no event — no collective, helper, or profiling call — is recorded; in
deferred mode the computation graph is returned unchanged, so no collective,
aggregation, or profiling operation is created. -/
theorem single_participant_identity (f : Grad → Grad) :
    (∀ s : WrapperState,
      DistributedOptimizer.allreduceCall 1 f s
        = ({ s with aggregated_gradients := true }, CallOutcome.gradients s.grads, [])) ∧
    (∀ (grads : List (Option Nat)) (g : Graph),
      allreduceDeferred 1 grads g = (grads, g)) :=
  ⟨fun _ => rfl, fun _ _ => rfl⟩

/-- Mapping values inside the options does not move the null positions. -/
theorem map_optionMap_isSome (h : α → β) (l : List (Option α)) :
    (l.map (Option.map h)).map Option.isSome = l.map Option.isSome := by
  simp only [List.map_map]
  refine List.map_congr_left ?_
  intro a _
  cases a <;> rfl

/-- Accumulating a batch into aligned accumulators keeps the alignment. -/
theorem zipAccumulate_isSome :
    ∀ (acc0 : List (Option Int)) (grads : List (Option Grad)),
      acc0.map Option.isSome = grads.map Option.isSome →
      (List.zipWith (fun a g =>
          match a, g with
          | some s, some gr => some (s + gr.value)
          | _, _ => (none : Option Int)) acc0 grads).map Option.isSome
        = grads.map Option.isSome
  | [], grads, h => by
      have : grads = [] := by
        cases grads with
        | nil => rfl
        | cons g gs => simp at h
      subst this; rfl
  | a :: acc0, grads, h => by
      cases grads with
      | nil => simp at h
      | cons g gs =>
          simp only [List.map_cons, List.cons.injEq] at h
          cases a with
          | none =>
              cases g with
              | none => simpa using zipAccumulate_isSome acc0 gs h.2
              | some g0 => simp at h
          | some a0 =>
              cases g with
              | none => simp at h
              | some g0 => simpa using zipAccumulate_isSome acc0 gs h.2

/-- The eager helper's `compute_gradients`, driven by the reduction
function the wrapper builds, succeeds on aligned accumulators and keeps
input length and the null positions exactly. -/
theorem compute_gradients_null_passthrough (h : AggHelperEager) (sad : Bool)
    (f : Grad → Grad) (grads : List (Option Grad))
    (hal : (h.accumulators.getD (zeroAccumulators grads)).map Option.isSome
        = grads.map Option.isSome) :
    ∃ res evs h2,
      h.compute_gradients (allreduce_grads sad f) grads = Except.ok (res, evs, h2) ∧
      res.map Option.isSome = grads.map Option.isSome ∧
      res.length = grads.length := by
  unfold AggHelperEager.compute_gradients
  dsimp only
  rw [if_pos hal]
  by_cases hc : h.counter + 1 < h.aggregation_frequency
  · rw [if_pos hc]
    exact ⟨grads, [], _, rfl, rfl, rfl⟩
  · rw [if_neg hc]
    refine ⟨_, _, _, rfl, ?_, ?_⟩
    · rw [allreduce_grads_fst, map_optionMap_isSome, map_optionMap_isSome,
        zipAccumulate_isSome _ _ hal]
    · have hlen :
          ((allreduce_grads sad f
            ((List.zipWith (fun a g =>
              match a, g with
              | some s, some gr => some (s + gr.value)
              | _, _ => (none : Option Int)) (h.accumulators.getD (zeroAccumulators grads)) grads).map
                (Option.map fun s => Grad.dense
                  (if h.average_aggregated_gradients then
                    s / (h.aggregation_frequency : Int) else s)))).1).map Option.isSome
            = grads.map Option.isSome := by
        rw [allreduce_grads_fst, map_optionMap_isSome, map_optionMap_isSome,
          zipAccumulate_isSome _ _ hal]
      have := congrArg List.length hlen
      simpa using this

/-- The deferred-mode aggregation helper keeps the null positions of its
input batch. -/
theorem deferredComputeGradients_isSome (ps : Nat) :
    ∀ (grads : List (Option Nat)) (g : Graph),
      (deferredComputeGradients ps grads g).1.map Option.isSome
        = grads.map Option.isSome
  | [], _ => rfl
  | none :: rest, g => by
      simp [deferredComputeGradients, deferredComputeGradients_isSome ps rest g]
  | some t :: rest, g => by
      simp [deferredComputeGradients,
        deferredComputeGradients_isSome ps rest ((g.addOp (.reducedGradOp t) [ps]).2)]

/-- The identity layer keeps the null positions of its input batch. -/
theorem identityLayer_isSome (ce : Nat) :
    ∀ (grads : List (Option Nat)) (g : Graph),
      (identityLayer ce grads g).1.map Option.isSome = grads.map Option.isSome
  | [], _ => rfl
  | none :: rest, g => by
      simp [identityLayer, identityLayer_isSome ce rest g]
  | some t :: rest, g => by
      simp [identityLayer,
        identityLayer_isSome ce rest ((g.addOp (.identityOp t) [ce]).2)]

/-- C4.  A gradient batch containing nulls passes through `_allreduce`
whole, in both execution modes and for every participant count: the call
completes without error (in eager mode the outcome is a gradient batch,
never a raised error, given the helper's accumulators are aligned with the
batch — a fresh helper always is) and returns null at exactly the input's
null positions, with the input's length. -/
theorem null_gradients_pass_through (n : Nat) (f : Grad → Grad) :
    (∀ s : WrapperState,
      (s.agg_helper.accumulators.getD (zeroAccumulators s.grads)).map Option.isSome
          = s.grads.map Option.isSome →
      ∃ res : List (Option Grad),
        (DistributedOptimizer.allreduceCall n f s).2.1 = CallOutcome.gradients res ∧
        res.map Option.isSome = s.grads.map Option.isSome ∧
        res.length = s.grads.length) ∧
    (∀ (grads : List (Option Nat)) (g : Graph),
      (allreduceDeferred n grads g).1.map Option.isSome = grads.map Option.isSome) := by
  constructor
  · intro s hal
    unfold DistributedOptimizer.allreduceCall
    dsimp only
    by_cases hn : 1 < n
    · rw [if_pos hn]
      obtain ⟨res, evs, h2, hok, hsome, hlen⟩ :=
        compute_gradients_null_passthrough s.agg_helper s.agg_helper.sparse_as_dense
          f s.grads hal
      rw [hok]
      exact ⟨res, rfl, hsome, hlen⟩
    · rw [if_neg hn]
      exact ⟨s.grads, rfl, rfl, rfl⟩
  · intro grads g
    unfold allreduceDeferred
    by_cases hn : 1 < n
    · rw [if_pos hn]
      unfold allreduceDeferredBody
      dsimp only
      rw [identityLayer_isSome, deferredComputeGradients_isSome]
    · rw [if_neg hn]

/-- Concrete instance of `null_gradients_pass_through`: a fresh
two-participant wrapper on a batch with a null in the middle. -/
theorem null_gradients_pass_through_witness :
    ∃ res : List (Option Grad),
      (DistributedOptimizer.allreduceCall 2 (fun g => g)
          ⟨false, [some (Grad.dense 3), none, some (Grad.indexedSlices 0 7)],
            freshAggHelperEager 1 false false⟩).2.1 = CallOutcome.gradients res ∧
      res.map Option.isSome
        = [some (Grad.dense 3), none, some (Grad.indexedSlices 0 7)].map Option.isSome ∧
      res.length = [some (Grad.dense 3), none, some (Grad.indexedSlices 0 7)].length :=
  (null_gradients_pass_through 2 (fun g => g)).1
    ⟨false, [some (Grad.dense 3), none, some (Grad.indexedSlices 0 7)],
      freshAggHelperEager 1 false false⟩ (by decide)

theorem Graph.addOp_fst (g : Graph) (k : OpKind) (c : List Nat) :
    (g.addOp k c).1 = g.fresh := rfl

theorem Graph.addOp_snd_ops (g : Graph) (k : OpKind) (c : List Nat) :
    (g.addOp k c).2.ops = g.ops ++ [⟨g.fresh, k, c⟩] := rfl

/-- No operation kind is both a reduced gradient and an identity, and the
profiling markers are neither. -/
theorem OpKind.not_both (k : OpKind) :
    (k.isIdentity = true → k.isReducedGrad = false) ∧
    (OpKind.isReducedGrad .profileStartOp = false) ∧
    (OpKind.isReducedGrad .profileEndOp = false) ∧
    (OpKind.isIdentity .profileStartOp = false) ∧
    (OpKind.isIdentity .profileEndOp = false) := by
  refine ⟨?_, rfl, rfl, rfl, rfl⟩
  cases k <;> simp [OpKind.isIdentity, OpKind.isReducedGrad]

/-- The operations the deferred aggregation helper appends: all
reduced-gradient operations, each carrying the control edge from the
profiling start marker, their ids being exactly the non-null entries of the
returned batch, in order. -/
theorem deferredComputeGradients_spec (ps : Nat) :
    ∀ (grads : List (Option Nat)) (g : Graph),
      ∃ newOps : List GraphOp,
        (deferredComputeGradients ps grads g).2.ops = g.ops ++ newOps ∧
        (deferredComputeGradients ps grads g).1.filterMap id = newOps.map GraphOp.id ∧
        ∀ op ∈ newOps, op.kind.isReducedGrad = true ∧ op.ctrl = [ps]
  | [], g => ⟨[], by simp [deferredComputeGradients], by simp [deferredComputeGradients],
      by simp⟩
  | none :: rest, g => by
      obtain ⟨newOps, h1, h2, h3⟩ := deferredComputeGradients_spec ps rest g
      exact ⟨newOps, by simpa [deferredComputeGradients] using h1,
        by simpa [deferredComputeGradients] using h2, h3⟩
  | some t :: rest, g => by
      obtain ⟨newOps, h1, h2, h3⟩ :=
        deferredComputeGradients_spec ps rest ((g.addOp (.reducedGradOp t) [ps]).2)
      refine ⟨⟨g.fresh, .reducedGradOp t, [ps]⟩ :: newOps, ?_, ?_, ?_⟩
      · rw [show (deferredComputeGradients ps (some t :: rest) g).2
            = (deferredComputeGradients ps rest ((g.addOp (.reducedGradOp t) [ps]).2)).2
          from rfl, h1, Graph.addOp_snd_ops]
        simp
      · rw [show (deferredComputeGradients ps (some t :: rest) g).1
            = some (g.addOp (.reducedGradOp t) [ps]).1
                :: (deferredComputeGradients ps rest ((g.addOp (.reducedGradOp t) [ps]).2)).1
          from rfl]
        simp [h2, Graph.addOp_fst]
      · intro op hop
        rcases List.mem_cons.mp hop with h | h
        · subst h
          exact ⟨rfl, rfl⟩
        · exact h3 op h

/-- The operations the identity layer appends: all identity operations,
each carrying the control edge from the profiling end marker, their ids
being exactly the non-null entries of the returned batch, in order. -/
theorem identityLayer_spec (ce : Nat) :
    ∀ (grads : List (Option Nat)) (g : Graph),
      ∃ newOps : List GraphOp,
        (identityLayer ce grads g).2.ops = g.ops ++ newOps ∧
        (identityLayer ce grads g).1.filterMap id = newOps.map GraphOp.id ∧
        ∀ op ∈ newOps, op.kind.isIdentity = true ∧ op.ctrl = [ce]
  | [], g => ⟨[], by simp [identityLayer], by simp [identityLayer], by simp⟩
  | none :: rest, g => by
      obtain ⟨newOps, h1, h2, h3⟩ := identityLayer_spec ce rest g
      exact ⟨newOps, by simpa [identityLayer] using h1,
        by simpa [identityLayer] using h2, h3⟩
  | some t :: rest, g => by
      obtain ⟨newOps, h1, h2, h3⟩ :=
        identityLayer_spec ce rest ((g.addOp (.identityOp t) [ce]).2)
      refine ⟨⟨g.fresh, .identityOp t, [ce]⟩ :: newOps, ?_, ?_, ?_⟩
      · rw [show (identityLayer ce (some t :: rest) g).2
            = (identityLayer ce rest ((g.addOp (.identityOp t) [ce]).2)).2
          from rfl, h1, Graph.addOp_snd_ops]
        simp
      · rw [show (identityLayer ce (some t :: rest) g).1
            = some (g.addOp (.identityOp t) [ce]).1
                :: (identityLayer ce rest ((g.addOp (.identityOp t) [ce]).2)).1
          from rfl]
        simp [h2, Graph.addOp_fst]
      · intro op hop
        rcases List.mem_cons.mp hop with h | h
        · subst h
          exact ⟨rfl, rfl⟩
        · exact h3 op h

/-- The full decomposition of the graph `_allreduce` builds in deferred
mode from an empty recording: the profiling start marker first, then the
reduced-gradient operations `R`, then the profiling end marker whose
control inputs are exactly the ids of `R`, then the identity layer `I`
whose ids are exactly the non-null entries of the returned batch. -/
theorem allreduceDeferredBody_spec (grads : List (Option Nat)) :
    ∃ (R I : List GraphOp) (ceId : Nat),
      (allreduceDeferredBody grads Graph.empty).2.ops
        = ⟨0, OpKind.profileStartOp, []⟩
            :: (R ++ ⟨ceId, OpKind.profileEndOp, R.map GraphOp.id⟩ :: I) ∧
      (allreduceDeferredBody grads Graph.empty).1.filterMap id = I.map GraphOp.id ∧
      (∀ op ∈ R, op.kind.isReducedGrad = true ∧ op.ctrl = [0]) ∧
      (∀ op ∈ I, op.kind.isIdentity = true ∧ op.ctrl = [ceId]) := by
  obtain ⟨R, hR1, hR2, hR3⟩ :=
    deferredComputeGradients_spec 0 grads ⟨[⟨0, OpKind.profileStartOp, []⟩], 1⟩
  obtain ⟨I, hI1, hI2, hI3⟩ :=
    identityLayer_spec
      (deferredComputeGradients 0 grads ⟨[⟨0, OpKind.profileStartOp, []⟩], 1⟩).2.fresh
      (deferredComputeGradients 0 grads ⟨[⟨0, OpKind.profileStartOp, []⟩], 1⟩).1
      ((((deferredComputeGradients 0 grads ⟨[⟨0, OpKind.profileStartOp, []⟩], 1⟩).2).addOp
        OpKind.profileEndOp
        ((deferredComputeGradients 0 grads
          ⟨[⟨0, OpKind.profileStartOp, []⟩], 1⟩).1.filterMap id)).2)
  have hbody : allreduceDeferredBody grads Graph.empty
      = identityLayer
          (deferredComputeGradients 0 grads ⟨[⟨0, OpKind.profileStartOp, []⟩], 1⟩).2.fresh
          (deferredComputeGradients 0 grads ⟨[⟨0, OpKind.profileStartOp, []⟩], 1⟩).1
          ((((deferredComputeGradients 0 grads ⟨[⟨0, OpKind.profileStartOp, []⟩], 1⟩).2).addOp
            OpKind.profileEndOp
            ((deferredComputeGradients 0 grads
              ⟨[⟨0, OpKind.profileStartOp, []⟩], 1⟩).1.filterMap id)).2) := rfl
  refine ⟨R, I,
    (deferredComputeGradients 0 grads ⟨[⟨0, OpKind.profileStartOp, []⟩], 1⟩).2.fresh,
    ?_, ?_, hR3, hI3⟩
  · rw [hbody, hI1, Graph.addOp_snd_ops, hR1, hR2]
    simp
  · rw [hbody, hI2]

/-- C6.  In deferred execution mode with more than one participant,
`_allreduce` wires explicit dependency edges: there is a profiling start
marker `ps` after which every reduced-gradient operation of the aggregation
helper is forced to run; the profiling end marker `ce` lists exactly the
reduced-gradient operation ids as its control inputs, so it runs only after
all reduced gradients are produced; and every identity tensor — in
particular every non-null entry returned to the caller — is forced to run
only after `ce`. -/
theorem deferred_profiling_dependency_edges (n : Nat) (grads : List (Option Nat))
    (hn : 1 < n) :
    ∃ (ps ce : Nat) (G : Graph) (res : List (Option Nat)),
      allreduceDeferred n grads Graph.empty = (res, G) ∧
      (⟨ps, OpKind.profileStartOp, []⟩ : GraphOp) ∈ G.ops ∧
      (∀ op ∈ G.ops, op.kind.isReducedGrad = true → G.dependsOn op.id ps) ∧
      (∃ ceOp ∈ G.ops, ceOp.id = ce ∧ ceOp.kind = OpKind.profileEndOp ∧
        ceOp.ctrl = (G.ops.filter (fun op => op.kind.isReducedGrad)).map GraphOp.id) ∧
      (∀ op ∈ G.ops, op.kind.isIdentity = true → G.dependsOn op.id ce) ∧
      (∀ i ∈ res.filterMap id, G.dependsOn i ce ∧
        ∃ op ∈ G.ops, op.id = i ∧ op.kind.isIdentity = true) := by
  obtain ⟨R, I, ceId, hops, hres, hR, hI⟩ := allreduceDeferredBody_spec grads
  have hd : allreduceDeferred n grads Graph.empty = allreduceDeferredBody grads Graph.empty := by
    unfold allreduceDeferred
    rw [if_pos hn]
  refine ⟨0, ceId, (allreduceDeferredBody grads Graph.empty).2,
    (allreduceDeferredBody grads Graph.empty).1, by rw [hd], ?_, ?_, ?_, ?_, ?_⟩
  · rw [hops]
    exact List.mem_cons_self _ _
  · intro op hop hk
    refine ⟨op, hop, rfl, ?_⟩
    rw [hops] at hop
    rcases List.mem_cons.mp hop with h | h
    · rw [h] at hk
      simp [OpKind.isReducedGrad] at hk
    · rcases List.mem_append.mp h with h | h
      · rw [(hR op h).2]
        exact List.mem_singleton.mpr rfl
      · rcases List.mem_cons.mp h with h | h
        · rw [h] at hk
          simp [OpKind.isReducedGrad] at hk
        · have := ((OpKind.not_both op.kind).1 (hI op h).1)
          rw [this] at hk
          exact absurd hk (by simp)
  · refine ⟨⟨ceId, OpKind.profileEndOp, R.map GraphOp.id⟩, ?_, rfl, rfl, ?_⟩
    · rw [hops]
      exact List.mem_cons_of_mem _ (List.mem_append_right _ (List.mem_cons_self _ _))
    · rw [hops]
      have hfR : R.filter (fun op => op.kind.isReducedGrad) = R :=
        List.filter_eq_self.mpr (fun op h => (hR op h).1)
      have hfI : I.filter (fun op => op.kind.isReducedGrad) = [] :=
        List.filter_eq_nil_iff.mpr (fun op h => by
          rw [(OpKind.not_both op.kind).1 (hI op h).1]
          simp)
      rw [List.filter_cons_of_neg, List.filter_append, hfR,
        List.filter_cons_of_neg, hfI, List.append_nil]
      all_goals simp [OpKind.isReducedGrad]
  · intro op hop hk
    refine ⟨op, hop, rfl, ?_⟩
    rw [hops] at hop
    rcases List.mem_cons.mp hop with h | h
    · rw [h] at hk
      simp [OpKind.isIdentity] at hk
    · rcases List.mem_append.mp h with h | h
      · have := (OpKind.not_both op.kind).1 hk
        rw [(hR op h).1] at this
        exact absurd this (by simp)
      · rcases List.mem_cons.mp h with h | h
        · rw [h] at hk
          simp [OpKind.isIdentity] at hk
        · rw [(hI op h).2]
          exact List.mem_singleton.mpr rfl
  · intro i hi
    rw [hres] at hi
    obtain ⟨op, hmem, hid⟩ := List.mem_map.mp hi
    have hopsmem : op ∈ (allreduceDeferredBody grads Graph.empty).2.ops := by
      rw [hops]
      exact List.mem_cons_of_mem _
        (List.mem_append_right _ (List.mem_cons_of_mem _ hmem))
    refine ⟨⟨op, hopsmem, hid, ?_⟩, ⟨op, hopsmem, hid, (hI op hmem).1⟩⟩
    rw [(hI op hmem).2]
    exact List.mem_singleton.mpr rfl

/-- Concrete instance of `deferred_profiling_dependency_edges`: two
participants, a two-entry batch with a null. -/
theorem deferred_profiling_dependency_edges_witness :
    ∃ (ps ce : Nat) (G : Graph) (res : List (Option Nat)),
      allreduceDeferred 2 [some 0, none] Graph.empty = (res, G) ∧
      (⟨ps, OpKind.profileStartOp, []⟩ : GraphOp) ∈ G.ops ∧
      (∀ op ∈ G.ops, op.kind.isReducedGrad = true → G.dependsOn op.id ps) ∧
      (∃ ceOp ∈ G.ops, ceOp.id = ce ∧ ceOp.kind = OpKind.profileEndOp ∧
        ceOp.ctrl = (G.ops.filter (fun op => op.kind.isReducedGrad)).map GraphOp.id) ∧
      (∀ op ∈ G.ops, op.kind.isIdentity = true → G.dependsOn op.id ce) ∧
      (∀ i ∈ res.filterMap id, G.dependsOn i ce ∧
        ∃ op ∈ G.ops, op.id = i ∧ op.kind.isIdentity = true) :=
  deferred_profiling_dependency_edges 2 [some 0, none] (by decide)

/-- Inserting further bindings never erases a present binding's key. -/
theorem foldl_dictInsert_isSome :
    ∀ (l : List (String × α)) (d : Dict α) (k : String), (d k).isSome →
      ((l.foldl (fun d p => dictInsert d p.1 p.2) d) k).isSome
  | [], _, _, h => h
  | q :: l, d, k, h => by
      refine foldl_dictInsert_isSome l (dictInsert d q.1 q.2) k ?_
      unfold dictInsert
      by_cases hk : k = q.1 <;> simp [hk, h]

/-- A key bound somewhere in the pair list is bound in the resulting
dict. -/
theorem foldl_dictInsert_isSome_of_mem :
    ∀ (l : List (String × α)) (d : Dict α) (p : String × α), p ∈ l →
      ((l.foldl (fun d p => dictInsert d p.1 p.2) d) p.1).isSome
  | q :: l, d, p, h => by
      rcases List.mem_cons.mp h with h | h
      · subst h
        refine foldl_dictInsert_isSome l _ _ ?_
        simp [dictInsert]
      · exact foldl_dictInsert_isSome_of_mem l _ p h

theorem dictOfList_isSome_of_mem (l : List (String × α)) (p : String × α)
    (h : p ∈ l) : (dictOfList l p.1).isSome :=
  foldl_dictInsert_isSome_of_mem l _ p h

/-- A key bound nowhere in the pair list is untouched by the fold. -/
theorem foldl_dictInsert_eq_of_not_mem :
    ∀ (l : List (String × α)) (d : Dict α) (k : String), (∀ p ∈ l, p.1 ≠ k) →
      (l.foldl (fun d p => dictInsert d p.1 p.2) d) k = d k
  | [], _, _, _ => rfl
  | q :: l, d, k, h => by
      rw [List.foldl_cons,
        foldl_dictInsert_eq_of_not_mem l _ k (fun p hp => h p (List.mem_cons_of_mem q hp))]
      have hq : q.1 ≠ k := h q (List.mem_cons_self q l)
      show (if k = q.1 then some q.2 else d k) = d k
      exact if_neg (fun hh => hq hh.symm)

theorem dictOfList_eq_none_of_not_mem (l : List (String × α)) (k : String)
    (h : ∀ p ∈ l, p.1 ≠ k) : dictOfList l k = none :=
  foldl_dictInsert_eq_of_not_mem l _ k h

/-- C8.  `load_model` loads the model with the combined name→constructor
table, and in that table entries from `custom_objects` override equal-keyed
entries from `custom_optimizers`, which override equal-keyed entries built
from the known built-in optimizer subclasses. -/
theorem load_model_table_precedence {α β : Type} (wrap : PyClass → α)
    (mods : List String) (subs : List PyClass) (cos : List PyClass)
    (co : Dict α) (filepath : String) (loadFn : String → Dict α → β) :
    (load_model wrap mods subs filepath (some cos) (some co) loadFn
      = loadFn filepath (horovodObjects wrap mods subs (some cos) (some co))) ∧
    (∀ k v, co k = some v →
      horovodObjects wrap mods subs (some cos) (some co) k = some v) ∧
    (∀ k v, co k = none → customOptimizerTable wrap cos k = some v →
      horovodObjects wrap mods subs (some cos) (some co) k = some v) ∧
    (∀ k, co k = none → customOptimizerTable wrap cos k = none →
      horovodObjects wrap mods subs (some cos) (some co) k
        = builtinTable wrap mods subs k) := by
  refine ⟨rfl, ?_, ?_, ?_⟩
  · intro k v h
    simp [horovodObjects, dictUpdate, h]
  · intro k v h1 h2
    simp [horovodObjects, dictUpdate, h1, h2]
  · intro k h1 h2
    simp [horovodObjects, dictUpdate, h1, h2]

/-- Concrete instance of `load_model_table_precedence`: a `custom_objects`
binding for key `A` wins over every lower layer. -/
theorem load_model_table_precedence_witness :
    horovodObjects (fun _ => (0 : Nat)) ["m"] [⟨"A", "m"⟩] (some [⟨"B", "x"⟩])
      (some (dictInsert (fun _ => none) "A" 7)) "A" = some 7 :=
  (load_model_table_precedence (fun _ => (0 : Nat)) ["m"] [⟨"A", "m"⟩] [⟨"B", "x"⟩]
    (dictInsert (fun _ => none) "A" 7) "f" (fun _ d => d)).2.1 "A" 7
    (by simp [dictInsert])

/-- C9.  In `load_model`, built-in optimizer entries are keyed by the class
name lowercased while `custom_optimizers` entries are keyed by the exact
class name: a custom optimizer class whose name equals a built-in
optimizer's class name but is not entirely lowercase lands under a
different key, so the built-in lowercased entry is present, is what the
combined table returns at the lowercased key, and is not replaced by the
custom class, which sits under its own exact-name key. -/
theorem load_model_case_sensitivity {α : Type} (wrap : PyClass → α)
    (mods : List String) (subs : List PyClass) (cos : List PyClass)
    (b c : PyClass)
    (hb1 : b ∈ subs) (hb2 : b.module ∈ mods)
    (hc : c ∈ cos) (hname : c.name = b.name)
    (hlower : c.name ≠ pyLower c.name)
    (hnocollide : ∀ q ∈ cos, q.name ≠ pyLower b.name) :
    c.name ≠ pyLower b.name ∧
    (builtinTable wrap mods subs (pyLower b.name)).isSome ∧
    horovodObjects wrap mods subs (some cos) none (pyLower b.name)
      = builtinTable wrap mods subs (pyLower b.name) ∧
    (customOptimizerTable wrap cos c.name).isSome ∧
    horovodObjects wrap mods subs (some cos) none c.name
      = customOptimizerTable wrap cos c.name := by
  have hkey : c.name ≠ pyLower b.name := by
    rw [hname] at hlower ⊢
    exact hlower
  have hbuiltin : (builtinTable wrap mods subs (pyLower b.name)).isSome := by
    refine dictOfList_isSome_of_mem _ (pyLower b.name, wrap b) ?_
    refine List.mem_map.mpr ⟨b, ?_, rfl⟩
    exact List.mem_filter.mpr ⟨hb1, by simpa using hb2⟩
  have hcustomNone : customOptimizerTable wrap cos (pyLower b.name) = none := by
    refine dictOfList_eq_none_of_not_mem _ _ ?_
    intro p hp
    obtain ⟨q, hq, rfl⟩ := List.mem_map.mp hp
    exact hnocollide q hq
  have hcustomSome : (customOptimizerTable wrap cos c.name).isSome :=
    dictOfList_isSome_of_mem _ (c.name, wrap c) (List.mem_map.mpr ⟨c, hc, rfl⟩)
  refine ⟨hkey, hbuiltin, ?_, hcustomSome, ?_⟩
  · simp [horovodObjects, dictUpdate, hcustomNone]
  · obtain ⟨v, hv⟩ := Option.isSome_iff_exists.mp hcustomSome
    simp [horovodObjects, dictUpdate, hv]

/-- Concrete instance of `load_model_case_sensitivity`: a built-in `Adam`
(keyed `adam`) and a custom class also named `Adam` (keyed `Adam`). -/
theorem load_model_case_sensitivity_witness :
    ("Adam" : String) ≠ pyLower "Adam" ∧
    (builtinTable (fun q => q.module) ["m"] [⟨"Adam", "m"⟩]
      (pyLower (PyClass.name ⟨"Adam", "m"⟩))).isSome ∧
    horovodObjects (fun q => q.module) ["m"] [⟨"Adam", "m"⟩] (some [⟨"Adam", "x"⟩]) none
        (pyLower (PyClass.name ⟨"Adam", "m"⟩))
      = builtinTable (fun q => q.module) ["m"] [⟨"Adam", "m"⟩]
          (pyLower (PyClass.name ⟨"Adam", "m"⟩)) ∧
    (customOptimizerTable (fun q => q.module) [⟨"Adam", "x"⟩]
      (PyClass.name ⟨"Adam", "x"⟩)).isSome ∧
    horovodObjects (fun q => q.module) ["m"] [⟨"Adam", "m"⟩] (some [⟨"Adam", "x"⟩]) none
        (PyClass.name ⟨"Adam", "x"⟩)
      = customOptimizerTable (fun q => q.module) [⟨"Adam", "x"⟩]
          (PyClass.name ⟨"Adam", "x"⟩) := by
  have h := load_model_case_sensitivity (fun q : PyClass => q.module) ["m"]
    [⟨"Adam", "m"⟩] [⟨"Adam", "x"⟩] ⟨"Adam", "m"⟩ ⟨"Adam", "x"⟩
    (by decide) (by decide) (by decide) rfl (by decide) (by decide)
  exact ⟨h.1, h.2⟩

/-- C10.  `create_distributed_optimizer` returns a fresh instance built via
`from_config(optimizer.get_config())` on a class bearing the wrapped
optimizer's class name; the returned instance carries exactly the
configuration `get_config` exposes — changing any other internal state of
the original instance changes nothing in the result — its wrapper state is
freshly initialized, and the original optimizer (the whole heap of live
instances) is left unmutated. -/
theorem create_distributed_optimizer_fresh_from_config
    (o : OptimizerInstance) (freq : Nat) (sad avg : Bool) :
    (create_distributed_optimizer o freq sad avg
      = fromConfig o.className o.get_config freq sad avg) ∧
    ((create_distributed_optimizer o freq sad avg).className = o.className) ∧
    ((create_distributed_optimizer o freq sad avg).config = o.get_config) ∧
    ((create_distributed_optimizer o freq sad avg).wrapper
      = freshWrapperState freq sad avg) ∧
    (∀ m : Nat,
      create_distributed_optimizer { o with internalState := m } freq sad avg
        = create_distributed_optimizer o freq sad avg) ∧
    (∀ o2 : OptimizerInstance, o2.get_config = o.get_config →
      o2.className = o.className →
      create_distributed_optimizer o2 freq sad avg
        = create_distributed_optimizer o freq sad avg) ∧
    (∀ (h : OptimizerHeap) (ref : Nat),
      (create_distributed_optimizer_heap h ref freq sad avg).2 = h ∧
      (create_distributed_optimizer_heap h ref freq sad avg).1
        = create_distributed_optimizer (h ref) freq sad avg) := by
  refine ⟨rfl, rfl, rfl, rfl, fun m => rfl, ?_, fun h ref => ⟨rfl, rfl⟩⟩
  intro o2 h1 h2
  simp [create_distributed_optimizer, fromConfig, OptimizerInstance.get_config,
    h1, h2] at h1 h2 ⊢
  simp [h1, h2]

/-- Concrete instance of `create_distributed_optimizer_fresh_from_config`:
two optimizers sharing class name and configuration but differing in
internal state yield the same wrapped instance. -/
theorem create_distributed_optimizer_fresh_from_config_witness :
    create_distributed_optimizer ⟨"SGD", [("lr", 1)], 5⟩ 4 true false
      = create_distributed_optimizer ⟨"SGD", [("lr", 1)], 9⟩ 4 true false :=
  (create_distributed_optimizer_fresh_from_config ⟨"SGD", [("lr", 1)], 9⟩
    4 true false).2.2.2.2.2.1 ⟨"SGD", [("lr", 1)], 5⟩ rfl rfl

/-- Concrete instance of `sparse_as_dense_handling`: a sparse gradient in a
two-entry batch with a null. -/
theorem sparse_as_dense_handling_witness :
    submittedGrad true (Grad.indexedSlices 2 5) =
        convert_to_tensor (Grad.indexedSlices 2 5) ∧
    (convert_to_tensor (Grad.indexedSlices 2 5)).isIndexedSlices = false ∧
    submittedGrad false (Grad.indexedSlices 2 5) = Grad.indexedSlices 2 5 :=
  (sparse_as_dense_handling (fun g => g) [some (Grad.indexedSlices 2 5), none]).2
    (Grad.indexedSlices 2 5) (by decide)

end Horovod
